import Mathlib

/-!
Verification of the liqid-backend case study's reconciliation pipeline.

The TypeScript services are shallowly embedded:
  - src/services/validationService.ts : JS values whose runtime type matters
    are modelled by JsVal; string truthiness by String.isEmpty; optional
    payloads by Option.
  - src/services/dataProcessingService.ts : flattening and merging.
  - src/services/syncService.ts and the GET /sync handler of src/index.ts :
    persistence, with the (external) store transaction capability modelled
    from the spec.
JS Map objects are modelled by association lists with Map.set semantics
(replace in place, else append); JS Set objects by duplicate-free lists in
insertion order.
-/

/-- JsVal models a JavaScript runtime value as far as the validators inspect
it: the validators only ever ask whether typeof x is number, so we keep
numbers, strings, booleans, null and undefined. -/
inductive JsVal where
  | num (n : Int)
  | str (s : String)
  | boolV (b : Bool)
  | null
  | undef
deriving DecidableEq, Repr

/-- Translation of the typeof x number test of JavaScript. -/
def JsVal.isNumber : JsVal → Bool
  | JsVal.num _ => true
  | _ => false

/-- DataXSecurity from src/types.ts. -/
structure DataXSecurity where
  isin : String
  count : JsVal
deriving DecidableEq, Repr

/-- DataXRegion from src/types.ts; the security leaf may be absent at
runtime (the validators and the flattener both guard for it). -/
structure DataXRegion where
  name : String
  security : Option DataXSecurity
deriving DecidableEq, Repr

/-- DataXAssetClass from src/types.ts; region is None when the region list
is missing or not an array. -/
structure DataXAssetClass where
  name : String
  region : Option (List DataXRegion)
deriving DecidableEq, Repr

/-- DataXAllocation from src/types.ts. -/
structure DataXAllocation where
  name : String
  assetClass : Option (List DataXAssetClass)
deriving DecidableEq, Repr

/-- DataXAllocationResponse from src/types.ts; the allocation payload may be
absent at runtime. -/
structure DataXAllocationResponse where
  id : String
  allocation : Option DataXAllocation
deriving DecidableEq, Repr

/-- DataXProductResponse from src/types.ts; the three amounts are runtime
JS values (the validator tests typeof), productType may be undefined. -/
structure DataXProductResponse where
  id : String
  profit : JsVal
  currentAmount : JsVal
  productType : Option String
  investedAmount : JsVal
deriving DecidableEq, Repr

/-- ValidationResult from src/types.ts. -/
structure ValidationResult where
  isValid : Bool
  errors : List String
deriving DecidableEq, Repr

/-- Modelled from the spec: Object.values(ProductType) of the prisma client
(the prisma schema is not under src); the fixed closed category set with the
two members the spec and the repository's tests name. -/
def productTypeValues : List String := ["WEALTH", "PRIVATE_EQUITY"]

/-- Display of a possibly-undefined string inside a template literal. -/
def optShow : Option String → String
  | none => "undefined"
  | some s => s

/-- ValidationService.validateProductType. -/
def validateProductType (productType : Option String) : Bool :=
  match productType with
  | none => false
  | some s => if s.isEmpty then false else productTypeValues.contains s

/-- ValidationService.validateProduct: accumulates one error per violated
rule and never returns early. -/
def validateProduct (product : DataXProductResponse) : ValidationResult :=
  let pt := optShow product.productType
  let errors :=
    (if product.id.isEmpty then ["Product ID is missing"] else [])
    ++ (if validateProductType product.productType then []
        else [s!"Invalid or missing product type: {pt}. Must be one of: WEALTH, PRIVATE_EQUITY"])
    ++ (if product.profit.isNumber then [] else ["Profit must be a number"])
    ++ (if product.currentAmount.isNumber then [] else ["Current amount must be a number"])
    ++ (if product.investedAmount.isNumber then [] else ["Invested amount must be a number"])
  { isValid := errors.isEmpty, errors := errors }

/-- Errors collected for one region at position (assetIndex, regionIndex) by
ValidationService.validateAllocation. -/
def regionErrors (assetIndex regionIndex : Nat) (region : DataXRegion) : List String :=
  (if region.name.isEmpty
   then [s!"Region name is missing at asset class {assetIndex}, region {regionIndex}"] else [])
  ++ (match region.security with
      | none => [s!"Security data is missing at asset class {assetIndex}, region {regionIndex}"]
      | some security =>
        (if security.isin.isEmpty
         then [s!"Security ISIN is missing at asset class {assetIndex}, region {regionIndex}"] else [])
        ++ (if security.count.isNumber then []
            else [s!"Security count must be a number at asset class {assetIndex}, region {regionIndex}"]))

/-- Errors collected for one asset class at position assetIndex by
ValidationService.validateAllocation. -/
def assetClassErrors (assetIndex : Nat) (assetClass : DataXAssetClass) : List String :=
  (if assetClass.name.isEmpty
   then [s!"Asset class name is missing at index {assetIndex}"] else [])
  ++ (match assetClass.region with
      | none => [s!"Region data is missing or invalid for asset class at index {assetIndex}"]
      | some regions =>
        (regions.enum.map (fun p => regionErrors assetIndex p.1 p.2)).flatten)

/-- ValidationService.validateAllocation: a missing id pushes an error and
traversal continues; only an absent allocation payload returns early. -/
def validateAllocation (allocation : DataXAllocationResponse) : ValidationResult :=
  let idErrors := if allocation.id.isEmpty then ["Allocation ID is missing"] else []
  match allocation.allocation with
  | none => { isValid := false, errors := idErrors ++ ["Allocation data is missing"] }
  | some alloc =>
    let errors := idErrors ++
      (match alloc.assetClass with
       | none => ["Asset class data is missing or invalid"]
       | some assetClasses =>
         (assetClasses.enum.map (fun p => assetClassErrors p.1 p.2)).flatten)
    { isValid := errors.isEmpty, errors := errors }

/-- JS Map.set: replace the value of an existing key in place, otherwise
append at the end. -/
def mapSet {α : Type} : List (String × α) → String → α → List (String × α)
  | [], k, v => [(k, v)]
  | (k', v') :: rest, k, v =>
    if k' == k then (k', v) :: rest else (k', v') :: mapSet rest k v

/-- JS Map.get. -/
def mapGet? {α : Type} : List (String × α) → String → Option α
  | [], _ => none
  | (k', v') :: rest, k => if k' == k then some v' else mapGet? rest k

/-- JS Map.has. -/
def mapHasKey {α : Type} (m : List (String × α)) (k : String) : Bool :=
  (mapGet? m k).isSome

/-- JS new Set(list): duplicate-free list in insertion order. -/
def setOfList (l : List String) : List String :=
  l.foldl (fun acc x => if acc.contains x then acc else acc ++ [x]) []

/-- Orphan-summary message of ValidationService.validateDataPairing. -/
def orphanProductMsg (id : String) : String :=
  s!"Product {id} has no corresponding allocation data"

/-- Orphan-allocation message of ValidationService.validateDataPairing. -/
def orphanAllocationMsg (id : String) : String :=
  s!"Allocation {id} has no corresponding product data"

/-- ValidationService.validateDataPairing: orphan summaries first, orphan
allocations second, then paired-valid verdicts for ids present in both sets
and not yet in the map. -/
def validateDataPairing (products : List DataXProductResponse)
    (allocations : List DataXAllocationResponse) :
    List (String × ValidationResult) :=
  let productIds := setOfList (products.map (fun p => p.id))
  let allocationIds := setOfList (allocations.map (fun a => a.id))
  let m1 := products.foldl (fun m product =>
    if allocationIds.contains product.id then m
    else mapSet m product.id { isValid := false, errors := [orphanProductMsg product.id] }) []
  let m2 := allocations.foldl (fun m allocation =>
    if productIds.contains allocation.id then m
    else mapSet m allocation.id { isValid := false, errors := [orphanAllocationMsg allocation.id] }) m1
  productIds.foldl (fun m id =>
    if allocationIds.contains id && !(mapHasKey m id)
    then mapSet m id { isValid := true, errors := [] } else m) m2

/-- Concrete valid summary used by witnesses, taken from the scenario in the
spec's testable properties. -/
def productP1 : DataXProductResponse :=
  ⟨"p1", JsVal.num 1000, JsVal.num 5000, some "WEALTH", JsVal.num 4000⟩

/-- Concrete valid allocation tree used by witnesses: one asset class Stocks
with one region US holding security US123 with count 100. -/
def allocationP1 : DataXAllocationResponse :=
  ⟨"p1", some ⟨"Alloc p1", some [⟨"Stocks", some [⟨"US", some ⟨"US123", JsVal.num 100⟩⟩]⟩]⟩⟩

example : (validateProduct productP1).isValid = true := by decide

example : (validateAllocation ⟨"", none⟩).errors =
    ["Allocation ID is missing", "Allocation data is missing"] := by decide

example : mapGet? (validateDataPairing [productP1] [allocationP1]) "p1" =
    some { isValid := true, errors := [] } := by decide

/-- ProcessedAllocation from src/types.ts (an allocation row without its
derived id). -/
structure ProcessedAllocation where
  productId : String
  assetClass : String
  region : String
  securityIsin : String
  securityCount : JsVal
deriving DecidableEq, Repr

/-- ProcessedProduct from src/types.ts; type keeps the raw productType the
code casts with as ProductType. -/
structure ProcessedProduct where
  id : String
  type : Option String
  profit : JsVal
  currentAmount : JsVal
  investedAmount : JsVal
  allocations : List ProcessedAllocation
deriving DecidableEq, Repr

/-- DataProcessingService.processAllocations: flattens the three-level tree
into rows, skipping an absent payload or asset-class list entirely, an asset
class without a region list, and a region without a security leaf. -/
def processAllocations (allocation : DataXAllocationResponse) : List ProcessedAllocation :=
  match allocation.allocation with
  | none => []
  | some alloc =>
    match alloc.assetClass with
    | none => []
    | some assetClasses =>
      assetClasses.flatMap (fun assetClass =>
        match assetClass.region with
        | none => []
        | some regions =>
          regions.flatMap (fun region =>
            match region.security with
            | none => []
            | some security =>
              [{ productId := allocation.id, assetClass := assetClass.name,
                 region := region.name, securityIsin := security.isin,
                 securityCount := security.count }]))

/-- DataProcessingService.mergeProductAndAllocations: per summary in input
order, gate on the pairing verdict, summary validity, allocation lookup,
allocation validity and non-empty flattening; push the merged entity. -/
def mergeProductAndAllocations (products : List DataXProductResponse)
    (allocations : List DataXAllocationResponse) : List ProcessedProduct :=
  let allocationMap := allocations.foldl (fun m allocation => mapSet m allocation.id allocation) []
  let pairingValidation := validateDataPairing products allocations
  products.filterMap (fun product =>
    match mapGet? pairingValidation product.id with
    | none => none
    | some pairingResult =>
      if !pairingResult.isValid then none
      else if !(validateProduct product).isValid then none
      else
        match mapGet? allocationMap product.id with
        | none => none
        | some allocation =>
          if !(validateAllocation allocation).isValid then none
          else
            let processedAllocations := processAllocations allocation
            if processedAllocations.isEmpty then none
            else some { id := product.id, type := product.productType,
                        profit := product.profit, currentAmount := product.currentAmount,
                        investedAmount := product.investedAmount,
                        allocations := processedAllocations })

/-- Modelled from the spec's words, as the refinement target for Reconcile:
one entity per summary whose matched tree exists (paired-valid id), whose
summary and tree validate, and whose flattening is non-empty; output in
input summary order. -/
def reconcileSpec (products : List DataXProductResponse)
    (allocations : List DataXAllocationResponse) : List ProcessedProduct :=
  products.filterMap (fun product =>
    match allocations.find? (fun a => a.id == product.id) with
    | none => none
    | some tree =>
      if (validateProduct product).isValid
          && (validateAllocation tree).isValid
          && !(processAllocations tree).isEmpty then
        some { id := product.id, type := product.productType,
               profit := product.profit, currentAmount := product.currentAmount,
               investedAmount := product.investedAmount,
               allocations := processAllocations tree }
      else none)

example : mergeProductAndAllocations [productP1] [allocationP1] =
    [{ id := "p1", type := some "WEALTH", profit := JsVal.num 1000,
       currentAmount := JsVal.num 5000, investedAmount := JsVal.num 4000,
       allocations := [⟨"p1", "Stocks", "US", "US123", JsVal.num 100⟩] }] := by decide

example : mergeProductAndAllocations [productP1] [] = [] := by decide

example : mergeProductAndAllocations [productP1] [allocationP1] =
    reconcileSpec [productP1] [allocationP1] := by decide

/-- SyncResult from src/types.ts. -/
structure SyncResult where
  success : Bool
  productsProcessed : Nat
  allocationsProcessed : Nat
  errors : List String
deriving DecidableEq, Repr

/-- Row of the product table as written by SyncService. -/
structure DBProduct where
  id : String
  type : Option String
  profit : JsVal
  currentAmount : JsVal
  investedAmount : JsVal
deriving DecidableEq, Repr

/-- Row of the allocation table as written by SyncService, with its derived
id. -/
structure DBAllocation where
  id : String
  productId : String
  assetClass : String
  region : String
  securityIsin : String
  securityCount : JsVal
deriving DecidableEq, Repr

/-- Modelled from the spec: the persisted store state of the external
persistence engine (the prisma client and src/database.ts are not under
src); two tables of rows in insertion order. -/
structure DBState where
  products : List DBProduct
  allocations : List DBAllocation
deriving DecidableEq, Repr

/-- An insert attempted inside the write transaction; a failure oracle over
these operations models which single inserts the store rejects. -/
inductive SaveOp where
  | insertProduct (id : String)
  | insertAllocation (id : String)
deriving DecidableEq, Repr

/-- Derived allocation row id written by SyncService.saveProductsToDatabase. -/
def allocRowId (r : ProcessedAllocation) : String :=
  let pid := r.productId
  let ac := r.assetClass
  let rg := r.region
  let isin := r.securityIsin
  s!"{pid}_{ac}_{rg}_{isin}"

/-- Product row written by SyncService.saveProductsToDatabase. -/
def dbProductOf (p : ProcessedProduct) : DBProduct :=
  ⟨p.id, p.type, p.profit, p.currentAmount, p.investedAmount⟩

/-- Allocation row written by SyncService.saveProductsToDatabase. -/
def dbAllocationOf (r : ProcessedAllocation) : DBAllocation :=
  ⟨allocRowId r, r.productId, r.assetClass, r.region, r.securityIsin, r.securityCount⟩

/-- Inner allocation-insert loop of SyncService.saveProductsToDatabase: each
successful insert appends the row and increments the counter; a rejected
insert raises, carrying the counters mutated so far. -/
def createAllocations (fails : SaveOp → Bool) (rows : List ProcessedAllocation)
    (tx : DBState) (res : SyncResult) :
    Except (String × SyncResult) (DBState × SyncResult) :=
  match rows with
  | [] => Except.ok (tx, res)
  | r :: rest =>
    let rid := allocRowId r
    if fails (SaveOp.insertAllocation rid) then
      Except.error (s!"insert of allocation {rid} rejected", res)
    else
      createAllocations fails rest
        { tx with allocations := tx.allocations ++ [dbAllocationOf r] }
        { res with allocationsProcessed := res.allocationsProcessed + 1 }

/-- Per-product loop of SyncService.saveProductsToDatabase: the try block
around one product's inserts catches any raised error, records the
per-product message on the outcome object and re-raises, aborting the
transaction body. -/
def saveLoop (fails : SaveOp → Bool) (products : List ProcessedProduct)
    (tx : DBState) (res : SyncResult) :
    Except (String × SyncResult) (DBState × SyncResult) :=
  match products with
  | [] => Except.ok (tx, res)
  | p :: rest =>
    let pid := p.id
    if fails (SaveOp.insertProduct pid) then
      let e := s!"insert of product {pid} rejected"
      Except.error (e, { res with errors := res.errors ++ [s!"Failed to save product {pid}: {e}"] })
    else
      match createAllocations fails p.allocations
          { tx with products := tx.products ++ [dbProductOf p] }
          { res with productsProcessed := res.productsProcessed + 1 } with
      | Except.error (e, res2) =>
        Except.error (e, { res2 with errors := res2.errors ++ [s!"Failed to save product {pid}: {e}"] })
      | Except.ok (tx2, res2) => saveLoop fails rest tx2 res2

/-- SyncService.saveProductsToDatabase. The transaction body first clears
both tables, then runs the per-product loop. Modelled from the spec: the
store's transaction capability commits the body's final state on success and
rolls the store back to the pre-call state when the body raises; the raised
error reaches the caller (the outcome object on the error side carries what
the catch blocks recorded before re-raising, and is not returned). -/
def saveProductsToDatabase (fails : SaveOp → Bool) (db : DBState)
    (products : List ProcessedProduct) :
    Except (String × SyncResult) SyncResult × DBState :=
  let res0 : SyncResult := { success := false, productsProcessed := 0,
                             allocationsProcessed := 0, errors := [] }
  match saveLoop fails products { products := [], allocations := [] } res0 with
  | Except.ok (txF, resF) => (Except.ok { resF with success := true }, txF)
  | Except.error (e, resF) =>
    (Except.error (e, { resF with errors := resF.errors ++ [s!"Transaction failed: {e}"] }), db)

/-- Insertion into a list of product rows sorted by id ascending. -/
def insertByIdAsc (p : DBProduct) : List DBProduct → List DBProduct
  | [] => [p]
  | q :: rest => if p.id < q.id then p :: q :: rest else q :: insertByIdAsc p rest

/-- Sort product rows by id ascending (orderBy id asc of the read query). -/
def sortByIdAsc (l : List DBProduct) : List DBProduct :=
  l.foldr insertByIdAsc []

/-- SyncService.getProductsWithAllocations: all products ordered by id
ascending, each with its allocation rows attached. -/
def getProductsWithAllocations (db : DBState) : List (DBProduct × List DBAllocation) :=
  (sortByIdAsc db.products).map
    (fun p => (p, db.allocations.filter (fun a => a.productId == p.id)))

/-- JSON body and status code returned by the GET /sync handler. -/
structure SyncResponse where
  status : Nat
  success : Bool
  message : String
  productsProcessed : Option Nat
  allocationsProcessed : Option Nat
  errors : Option (List String)
  errorMsg : Option String
deriving DecidableEq, Repr

/-- The GET /sync handler of src/index.ts: fetch both collections (the
fetched argument stands for the joined result of the external source
gateway, an Except because either fetch may fail), reconcile, answer 400
when nothing survived, persist otherwise, and map any raised error to a 500
response. -/
def getSyncHandler
    (fetched : Except String (List DataXAllocationResponse × List DataXProductResponse))
    (fails : SaveOp → Bool) (db : DBState) : SyncResponse × DBState :=
  match fetched with
  | Except.error e =>
    ({ status := 500, success := false, message := "Sync process failed",
       productsProcessed := none, allocationsProcessed := none,
       errors := none, errorMsg := some e }, db)
  | Except.ok (allocations, products) =>
    let processedProducts := mergeProductAndAllocations products allocations
    if processedProducts.isEmpty then
      ({ status := 400, success := false, message := "No valid products found to sync",
         productsProcessed := some 0, allocationsProcessed := some 0,
         errors := none, errorMsg := none }, db)
    else
      match saveProductsToDatabase fails db processedProducts with
      | (Except.ok syncResult, db2) =>
        ({ status := 200, success := syncResult.success,
           message := if syncResult.success then "Sync completed successfully" else "Sync failed",
           productsProcessed := some syncResult.productsProcessed,
           allocationsProcessed := some syncResult.allocationsProcessed,
           errors := if syncResult.errors.isEmpty then none else some syncResult.errors,
           errorMsg := none }, db2)
      | (Except.error (e, _), db2) =>
        ({ status := 500, success := false, message := "Sync process failed",
           productsProcessed := none, allocationsProcessed := none,
           errors := none, errorMsg := some e }, db2)

/-- Failure oracle that lets every insert succeed. -/
def noFail : SaveOp → Bool := fun _ => false

example : (saveProductsToDatabase noFail ⟨[], []⟩
    (mergeProductAndAllocations [productP1] [allocationP1])).1 =
    Except.ok { success := true, productsProcessed := 1, allocationsProcessed := 1, errors := [] } := by
  rfl

example : ((getSyncHandler (Except.ok ([allocationP1], [productP1])) noFail ⟨[], []⟩).1).status = 200 := by
  decide

example : ((getSyncHandler (Except.ok ([], [])) noFail ⟨[], []⟩).1).status = 400 := by decide


theorem mapGet?_mapSet {α : Type} (m : List (String × α)) (k : String) (v : α) (k2 : String) :
    mapGet? (mapSet m k v) k2 = if k2 == k then some v else mapGet? m k2 := by
  induction m with
  | nil =>
    simp only [mapSet, mapGet?]
    by_cases h : k2 = k
    · subst h; simp
    · simp [h, Ne.symm h]
  | cons kv rest ih =>
    obtain ⟨k1, v1⟩ := kv
    by_cases h1 : k1 = k
    · subst h1
      by_cases h2 : k2 = k1
      · subst h2; simp [mapSet, mapGet?]
      · simp [mapSet, mapGet?, h2, Ne.symm h2]
    · by_cases h2 : k1 = k2
      · subst h2
        have hk : k1 ≠ k := h1
        simp [mapSet, mapGet?, h1, hk]
      · simp [mapSet, mapGet?, h1, h2, ih]

theorem mapHasKey_mapSet {α : Type} (m : List (String × α)) (k : String) (v : α) (k2 : String) :
    mapHasKey (mapSet m k v) k2 = (k2 == k || mapHasKey m k2) := by
  simp only [mapHasKey, mapGet?_mapSet]
  by_cases h : k2 = k <;> simp [h]

theorem setOfList_aux (x : String) (l : List String) :
    ∀ acc, (x ∈ l.foldl (fun acc y => if acc.contains y then acc else acc ++ [y]) acc ↔
      x ∈ acc ∨ x ∈ l) := by
  induction l with
  | nil => intro acc; simp
  | cons y ys ih =>
    intro acc
    rw [List.foldl_cons]
    by_cases hy : acc.contains y = true
    · rw [if_pos hy, ih acc]
      have hmem : y ∈ acc := by simpa using hy
      constructor
      · rintro (h | h)
        · exact Or.inl h
        · exact Or.inr (List.mem_cons_of_mem y h)
      · rintro (h | h)
        · exact Or.inl h
        · rcases List.mem_cons.1 h with rfl | h2
          · exact Or.inl hmem
          · exact Or.inr h2
    · rw [if_neg hy, ih (acc ++ [y])]
      constructor
      · rintro (h | h)
        · rcases List.mem_append.1 h with h2 | h2
          · exact Or.inl h2
          · exact Or.inr (List.mem_cons.2 (Or.inl (by simpa using h2)))
        · exact Or.inr (List.mem_cons_of_mem y h)
      · rintro (h | h)
        · exact Or.inl (List.mem_append.2 (Or.inl h))
        · rcases List.mem_cons.1 h with rfl | h2
          · exact Or.inl (List.mem_append.2 (Or.inr (by simp)))
          · exact Or.inr h2

theorem setOfList_mem (l : List String) (x : String) :
    x ∈ setOfList l ↔ x ∈ l := by
  have h := setOfList_aux x l []
  simp only [List.not_mem_nil, false_or] at h
  exact h

theorem setOfList_contains (l : List String) (x : String) :
    (setOfList l).contains x = l.contains x := by
  by_cases h : x ∈ l
  · have h2 : x ∈ setOfList l := (setOfList_mem l x).2 h
    simp [List.elem_iff, h, h2]
  · have h2 : x ∉ setOfList l := fun hc => h ((setOfList_mem l x).1 hc)
    simp [List.elem_iff, h, h2]

theorem foldl_mapSet_get {α β : Type} (key : α → String) (cond : String → Bool)
    (val : String → β) (l : List α) :
    ∀ (m0 : List (String × β)) (k : String),
      mapGet? (l.foldl (fun m x =>
          if cond (key x) then m else mapSet m (key x) (val (key x))) m0) k
        = if (l.map key).contains k && !(cond k) then some (val k) else mapGet? m0 k := by
  induction l with
  | nil => intro m0 k; simp
  | cons x xs ih =>
    intro m0 k
    rw [List.foldl_cons, ih]
    by_cases hk : key x = k
    · subst hk
      by_cases hc : cond (key x) = true
      · simp [hc]
      · have hc2 : cond (key x) = false := by simpa using hc
        have hget : mapGet? (mapSet m0 (key x) (val (key x))) (key x) = some (val (key x)) := by
          rw [mapGet?_mapSet]; simp
        by_cases hxs : (xs.map key).contains (key x) = true
        · simp [hc2, hxs, hget]
        · have hxs2 : (xs.map key).contains (key x) = false := by simpa using hxs
          simp [hc2, hxs2, hget]
    · have hne : k ≠ key x := Ne.symm hk
      have hget : mapGet? (mapSet m0 (key x) (val (key x))) k = mapGet? m0 k := by
        rw [mapGet?_mapSet]; simp [hne]
      by_cases hc : cond (key x) = true
      · simp only [hc, if_true]
        simp [List.contains_cons, hne]
      · have hc2 : cond (key x) = false := by simpa using hc
        simp only [hc2, Bool.false_eq_true, if_false]
        simp [List.contains_cons, hne, hget]

theorem foldl_mapSetIfAbsent_get {β : Type} (tcond : String → Bool) (v : β) (l : List String) :
    ∀ (m0 : List (String × β)) (k : String),
      mapGet? (l.foldl (fun m id =>
          if tcond id && !(mapHasKey m id) then mapSet m id v else m) m0) k
        = if l.contains k && tcond k && !(mapHasKey m0 k) then some v else mapGet? m0 k := by
  induction l with
  | nil => intro m0 k; simp
  | cons x xs ih =>
    intro m0 k
    rw [List.foldl_cons, ih]
    by_cases hk : x = k
    · subst hk
      by_cases hc : tcond x = true
      · by_cases hm : mapHasKey m0 x = true
        · simp [hc, hm, List.contains_cons]
        · have hm2 : mapHasKey m0 x = false := by simpa using hm
          have hget : mapGet? (mapSet m0 x v) x = some v := by
            rw [mapGet?_mapSet]; simp
          have hhas : mapHasKey (mapSet m0 x v) x = true := by
            rw [mapHasKey_mapSet]; simp
          simp [hc, hm2, List.contains_cons, hhas, hget]
      · have hc2 : tcond x = false := by simpa using hc
        simp [hc2, List.contains_cons]
    · have hne : k ≠ x := Ne.symm hk
      by_cases hc : tcond x = true
      · by_cases hm : mapHasKey m0 x = true
        · simp [hc, hm, List.contains_cons, hne]
        · have hm2 : mapHasKey m0 x = false := by simpa using hm
          have hget : mapGet? (mapSet m0 x v) k = mapGet? m0 k := by
            rw [mapGet?_mapSet]; simp [hne]
          have hhas : mapHasKey (mapSet m0 x v) k = mapHasKey m0 k := by
            rw [mapHasKey_mapSet]; simp [hne]
          simp [hc, hm2, List.contains_cons, hne, hget, hhas]
      · have hc2 : tcond x = false := by simpa using hc
        simp [hc2, List.contains_cons, hne]

theorem validateDataPairing_get (products : List DataXProductResponse)
    (allocations : List DataXAllocationResponse) (k : String) :
    mapGet? (validateDataPairing products allocations) k =
      if (products.map (fun p => p.id)).contains k then
        (if (allocations.map (fun a => a.id)).contains k then
          some { isValid := true, errors := [] }
         else some { isValid := false, errors := [orphanProductMsg k] })
      else if (allocations.map (fun a => a.id)).contains k then
        some { isValid := false, errors := [orphanAllocationMsg k] }
      else none := by
  unfold validateDataPairing
  rw [foldl_mapSetIfAbsent_get
      (fun id => (setOfList (allocations.map (fun a => a.id))).contains id)
      ({ isValid := true, errors := [] } : ValidationResult)
      (setOfList (products.map (fun p => p.id)))]
  simp only [mapHasKey]
  simp only [foldl_mapSet_get (fun a : DataXAllocationResponse => a.id)
      (fun id => (setOfList (products.map (fun p => p.id))).contains id)
      (fun id => ({ isValid := false, errors := [orphanAllocationMsg id] } : ValidationResult))
      allocations]
  simp only [foldl_mapSet_get (fun p : DataXProductResponse => p.id)
      (fun id => (setOfList (allocations.map (fun a => a.id))).contains id)
      (fun id => ({ isValid := false, errors := [orphanProductMsg id] } : ValidationResult))
      products]
  simp only [setOfList_contains, setOfList_mem]
  cases hS : (products.map (fun p => p.id)).contains k <;>
    cases hT : (allocations.map (fun a => a.id)).contains k <;>
      simp [hS, hT, setOfList_mem, mapGet?]

theorem contains_congr_perm (l1 l2 : List String) (x : String) (h : l1.Perm l2) :
    l1.contains x = l2.contains x := by
  by_cases hm : x ∈ l1
  · have hm2 : x ∈ l2 := h.mem_iff.1 hm
    simp [List.elem_iff, hm, hm2]
  · have hm2 : x ∉ l2 := fun hc => hm (h.mem_iff.2 hc)
    simp [List.elem_iff, hm, hm2]

/-- Claim C3: validateDataPairing maps exactly the ids of both collections,
marking ids in both as paired-valid with no errors, summary-only ids with an
orphan-summary error, allocation-only ids with an orphan-allocation error,
and the verdict mapping is unchanged under permutation of either input
array. -/
theorem validateDataPairing_classification
    (products products2 : List DataXProductResponse)
    (allocations allocations2 : List DataXAllocationResponse) (id : String)
    (hp : products2.Perm products) (ha : allocations2.Perm allocations) :
    ((mapGet? (validateDataPairing products allocations) id).isSome
        = ((products.map (fun p => p.id)).contains id
            || (allocations.map (fun a => a.id)).contains id))
    ∧ (mapGet? (validateDataPairing products allocations) id
        = if (products.map (fun p => p.id)).contains id then
            (if (allocations.map (fun a => a.id)).contains id then
              some { isValid := true, errors := [] }
             else some { isValid := false, errors := [orphanProductMsg id] })
          else if (allocations.map (fun a => a.id)).contains id then
            some { isValid := false, errors := [orphanAllocationMsg id] }
          else none)
    ∧ (mapGet? (validateDataPairing products2 allocations2) id
        = mapGet? (validateDataPairing products allocations) id) := by
  refine ⟨?_, validateDataPairing_get products allocations id, ?_⟩
  · rw [validateDataPairing_get]
    cases hS : (products.map (fun p => p.id)).contains id <;>
      cases hT : (allocations.map (fun a => a.id)).contains id <;> simp [hS, hT]
  · rw [validateDataPairing_get, validateDataPairing_get]
    rw [contains_congr_perm _ _ id (hp.map (fun p => p.id)),
        contains_congr_perm _ _ id (ha.map (fun a => a.id))]

/-- Second concrete summary for witnesses, with id q1. -/
def productQ1 : DataXProductResponse :=
  ⟨"q1", JsVal.num 7, JsVal.num 8, some "PRIVATE_EQUITY", JsVal.num 9⟩

/-- Concrete allocation input with id q1 and an absent payload. -/
def allocQ1 : DataXAllocationResponse := ⟨"q1", none⟩

theorem validateDataPairing_classification_witness :
    ((mapGet? (validateDataPairing [productP1] [allocationP1, allocQ1]) "p1").isSome
        = (([productP1].map (fun p => p.id)).contains "p1"
            || ([allocationP1, allocQ1].map (fun a => a.id)).contains "p1"))
    ∧ (mapGet? (validateDataPairing [productP1] [allocationP1, allocQ1]) "p1"
        = if ([productP1].map (fun p => p.id)).contains "p1" then
            (if ([allocationP1, allocQ1].map (fun a => a.id)).contains "p1" then
              some { isValid := true, errors := [] }
             else some { isValid := false, errors := [orphanProductMsg "p1"] })
          else if ([allocationP1, allocQ1].map (fun a => a.id)).contains "p1" then
            some { isValid := false, errors := [orphanAllocationMsg "p1"] }
          else none)
    ∧ (mapGet? (validateDataPairing [productP1] [allocQ1, allocationP1]) "p1"
        = mapGet? (validateDataPairing [productP1] [allocationP1, allocQ1]) "p1") :=
  validateDataPairing_classification [productP1] [productP1]
    [allocationP1, allocQ1] [allocQ1, allocationP1] "p1" (by decide) (by decide)

/-- Claim C10: every ValidationResult produced by validateProduct,
validateAllocation or any entry of the validateDataPairing mapping is
marked valid exactly when its error list is empty. -/
theorem validationResult_invariant (product : DataXProductResponse)
    (allocation : DataXAllocationResponse)
    (products : List DataXProductResponse) (allocations : List DataXAllocationResponse)
    (id : String) (r : ValidationResult)
    (h : mapGet? (validateDataPairing products allocations) id = some r) :
    ((validateProduct product).isValid = (validateProduct product).errors.isEmpty)
    ∧ ((validateAllocation allocation).isValid = (validateAllocation allocation).errors.isEmpty)
    ∧ (r.isValid = r.errors.isEmpty) := by
  refine ⟨by simp [validateProduct], ?_, ?_⟩
  · obtain ⟨aid, alloc⟩ := allocation
    cases alloc with
    | none => simp [validateAllocation]
    | some tree => simp [validateAllocation]
  · rw [validateDataPairing_get] at h
    cases hS : (products.map (fun p => p.id)).contains id <;>
      cases hT : (allocations.map (fun a => a.id)).contains id <;> rw [hS, hT] at h
    · simp at h
    · rw [if_neg (by simp), if_pos rfl] at h
      obtain rfl : r = ⟨false, [orphanAllocationMsg id]⟩ := (Option.some.inj h).symm
      simp
    · rw [if_pos rfl, if_neg (by simp)] at h
      obtain rfl : r = ⟨false, [orphanProductMsg id]⟩ := (Option.some.inj h).symm
      simp
    · rw [if_pos rfl, if_pos rfl] at h
      obtain rfl : r = ⟨true, []⟩ := (Option.some.inj h).symm
      simp

theorem validationResult_invariant_witness :
    ((validateProduct productP1).isValid = (validateProduct productP1).errors.isEmpty)
    ∧ ((validateAllocation allocationP1).isValid = (validateAllocation allocationP1).errors.isEmpty)
    ∧ ((⟨true, []⟩ : ValidationResult).isValid = (⟨true, []⟩ : ValidationResult).errors.isEmpty) :=
  validationResult_invariant productP1 allocationP1 [productP1] [allocationP1] "p1" ⟨true, []⟩
    (by decide)

/-- Claim C6: validateProduct never short-circuits; the error count equals
the number of violated rules, and for a summary with a valid id and
category and exactly two non-numeric fields among profit, current amount
and invested amount, the error list holds exactly the two field-specific
errors. -/
theorem validateProduct_accumulates (product : DataXProductResponse) :
    ((validateProduct product).errors.length =
      (if product.id.isEmpty then 1 else 0)
      + (if validateProductType product.productType then 0 else 1)
      + (if product.profit.isNumber then 0 else 1)
      + (if product.currentAmount.isNumber then 0 else 1)
      + (if product.investedAmount.isNumber then 0 else 1))
    ∧ (product.id.isEmpty = false → validateProductType product.productType = true →
        ((if product.profit.isNumber then 0 else 1)
          + (if product.currentAmount.isNumber then 0 else 1)
          + (if product.investedAmount.isNumber then (0 : Nat) else 1) = 2) →
        ((validateProduct product).errors.length = 2
          ∧ ∀ e ∈ (validateProduct product).errors,
              e = "Profit must be a number" ∨ e = "Current amount must be a number"
                ∨ e = "Invested amount must be a number")) := by
  constructor
  · cases h1 : product.id.isEmpty <;>
      cases h2 : validateProductType product.productType <;>
        cases h3 : product.profit.isNumber <;>
          cases h4 : product.currentAmount.isNumber <;>
            cases h5 : product.investedAmount.isNumber <;>
              simp [validateProduct, h1, h2, h3, h4, h5]
  · intro h1 h2 hsum
    cases h3 : product.profit.isNumber <;>
      cases h4 : product.currentAmount.isNumber <;>
        cases h5 : product.investedAmount.isNumber <;>
          rw [h3, h4, h5] at hsum <;>
              first
                | exact absurd hsum (by decide)
                | (constructor
                   · simp [validateProduct, h1, h2, h3, h4, h5]
                   · intro e he
                     simp [validateProduct, h1, h2, h3, h4, h5] at he
                     tauto)

/-- Concrete summary with a valid id and category and exactly two
non-numeric amounts (profit is a string, current amount is null). -/
def productTwoBadFields : DataXProductResponse :=
  ⟨"test_1", JsVal.str "x", JsVal.null, some "WEALTH", JsVal.num 4000⟩

theorem validateProduct_accumulates_witness :
    (validateProduct productTwoBadFields).errors.length = 2
    ∧ ∀ e ∈ (validateProduct productTwoBadFields).errors,
        e = "Profit must be a number" ∨ e = "Current amount must be a number"
          ∨ e = "Invested amount must be a number" :=
  (validateProduct_accumulates productTwoBadFields).2 (by decide) (by decide) (by decide)

/-- Claim C5 counterexample: on the allocation input with a missing id but a
present tree payload, the claim predicts an immediate return with exactly
one error and no traversal; validateAllocation instead traverses the tree
and returns three errors, two of them from inside the asset-class walk. -/
theorem validateAllocation_failfast_counterexample :
    (validateAllocation ⟨"", some ⟨"x", some [⟨"", none⟩]⟩⟩).errors =
      ["Allocation ID is missing", "Asset class name is missing at index 0",
       "Region data is missing or invalid for asset class at index 0"] := by decide

/-- Claim C5 amended: only an absent tree payload makes validateAllocation
return immediately; it then reports isValid false and the payload-missing
error, preceded by an id-missing error when the id is also missing (so
exactly one error exactly when the id is present). A missing id alone does
not short-circuit traversal. -/
theorem validateAllocation_failfast_amended (allocation : DataXAllocationResponse)
    (h : allocation.allocation = none) :
    (validateAllocation allocation).isValid = false
    ∧ (validateAllocation allocation).errors =
        (if allocation.id.isEmpty then ["Allocation ID is missing"] else [])
          ++ ["Allocation data is missing"] := by
  obtain ⟨aid, alloc⟩ := allocation
  cases alloc with
  | none => simp [validateAllocation]
  | some tree => simp at h

theorem validateAllocation_failfast_amended_witness :
    (validateAllocation ⟨"a1", none⟩).isValid = false
    ∧ (validateAllocation ⟨"a1", none⟩).errors =
        (if ("a1" : String).isEmpty then ["Allocation ID is missing"] else [])
          ++ ["Allocation data is missing"] :=
  validateAllocation_failfast_amended ⟨"a1", none⟩ rfl

theorem flatMap_congr_mem {α β : Type} (l : List α) (f g : α → List β)
    (h : ∀ a ∈ l, f a = g a) : l.flatMap f = l.flatMap g := by
  induction l with
  | nil => simp
  | cons x xs ih =>
    rw [List.flatMap_cons, List.flatMap_cons, h x (by simp),
        ih (fun a ha => h a (by simp [ha]))]

theorem length_flatMap_eq {α β : Type} (l : List α) (f : α → List β) :
    (l.flatMap f).length = (l.map (fun a => (f a).length)).sum := by
  induction l with
  | nil => simp
  | cons x xs ih => simp [ih]

/-- Default security used only to state a getD-shaped field projection for
regions whose security presence is already hypothesised. -/
def emptySecurity : DataXSecurity := ⟨"", JsVal.undef⟩

theorem secRows_eq_map {β : Type} (f : DataXRegion → DataXSecurity → β) (rs : List DataXRegion)
    (h : ∀ r ∈ rs, r.security.isSome = true) :
    (rs.flatMap (fun region => match region.security with
      | none => ([] : List β)
      | some security => [f region security]))
      = rs.map (fun region => f region (region.security.getD emptySecurity)) := by
  induction rs with
  | nil => simp
  | cons r rest ih =>
    have hr := h r (by simp)
    obtain ⟨s, hs⟩ := Option.isSome_iff_exists.1 hr
    rw [List.flatMap_cons, List.map_cons, ih (fun x hx => h x (by simp [hx])), hs]
    simp

theorem secRows_filter {β : Type} (f : DataXRegion → DataXSecurity → β) (rs : List DataXRegion) :
    ((rs.filter (fun r => r.security.isSome)).flatMap (fun region => match region.security with
      | none => ([] : List β)
      | some security => [f region security]))
      = rs.flatMap (fun region => match region.security with
      | none => ([] : List β)
      | some security => [f region security]) := by
  induction rs with
  | nil => simp
  | cons r rest ih =>
    cases hs : r.security with
    | none => simp [List.filter_cons, hs, ih]
    | some s => simp [List.filter_cons, hs, ih]

theorem flatMap_map_eq {α γ β : Type} (l : List α) (g : α → γ) (f : γ → List β) :
    (l.map g).flatMap f = l.flatMap (fun a => f (g a)) := by
  induction l with
  | nil => simp
  | cons x xs ih => simp [ih]

theorem sum_map_const_nat {α : Type} (l : List α) (M : Nat) :
    (l.map (fun _ => M)).sum = l.length * M := by
  induction l with
  | nil => simp
  | cons x xs ih =>
    simp only [List.map_cons, List.sum_cons, ih, List.length_cons]
    ring

/-- Claim C4: for a tree whose asset classes each hold M regions all
carrying a security, processAllocations returns the full cross product in
document order, each row with the enclosing names, the security fields and
the entity id, so exactly N times M rows; and regions lacking a security
leaf contribute nothing (removing them does not change the output). -/
theorem processAllocations_flatten (a : DataXAllocationResponse) (alloc : DataXAllocation)
    (acs : List DataXAssetClass) (M : Nat)
    (h1 : a.allocation = some alloc) (h2 : alloc.assetClass = some acs)
    (h3 : ∀ ac ∈ acs, ∃ rs, ac.region = some rs ∧ rs.length = M ∧
            ∀ r ∈ rs, r.security.isSome = true) :
    (processAllocations a = acs.flatMap (fun assetClass =>
        (assetClass.region.getD []).map (fun region =>
          ({ productId := a.id, assetClass := assetClass.name, region := region.name,
             securityIsin := (region.security.getD emptySecurity).isin,
             securityCount := (region.security.getD emptySecurity).count } : ProcessedAllocation))))
    ∧ ((processAllocations a).length = acs.length * M)
    ∧ (∀ id nm acs2, processAllocations ⟨id, some ⟨nm, some acs2⟩⟩ =
        processAllocations ⟨id, some ⟨nm, some (acs2.map (fun ac =>
          ⟨ac.name, ac.region.map (fun rs => rs.filter (fun r => r.security.isSome))⟩))⟩⟩) := by
  have heq : processAllocations a = acs.flatMap (fun assetClass =>
      (assetClass.region.getD []).map (fun region =>
        ({ productId := a.id, assetClass := assetClass.name, region := region.name,
           securityIsin := (region.security.getD emptySecurity).isin,
           securityCount := (region.security.getD emptySecurity).count } : ProcessedAllocation))) := by
    simp only [processAllocations, h1, h2]
    apply flatMap_congr_mem
    intro ac hac
    obtain ⟨rs, hrs, hlen, hsec⟩ := h3 ac hac
    rw [hrs]
    simp only [Option.getD_some]
    exact secRows_eq_map (fun region security =>
      ({ productId := a.id, assetClass := ac.name, region := region.name,
         securityIsin := security.isin, securityCount := security.count } : ProcessedAllocation))
      rs hsec
  refine ⟨heq, ?_, ?_⟩
  · rw [heq, length_flatMap_eq]
    have hmap : acs.map (fun ac => ((ac.region.getD []).map (fun region =>
        ({ productId := a.id, assetClass := ac.name, region := region.name,
           securityIsin := (region.security.getD emptySecurity).isin,
           securityCount := (region.security.getD emptySecurity).count } : ProcessedAllocation))).length)
        = acs.map (fun _ => M) := by
      apply List.map_eq_map_iff.mpr
      intro ac hac
      obtain ⟨rs, hrs, hlen, _⟩ := h3 ac hac
      rw [hrs]
      simp [hlen]
    rw [hmap, sum_map_const_nat]
  · intro id nm acs2
    simp only [processAllocations, flatMap_map_eq]
    apply flatMap_congr_mem
    intro ac hac
    cases hreg : ac.region with
    | none => simp
    | some rs =>
      simp only [Option.map_some]
      exact (secRows_filter (fun region security =>
        ({ productId := id, assetClass := ac.name, region := region.name,
           securityIsin := security.isin, securityCount := security.count } : ProcessedAllocation))
        rs).symm

/-- Asset class of the witness tree: one region US with security US123. -/
def stocksUS : DataXAssetClass := ⟨"Stocks", some [⟨"US", some ⟨"US123", JsVal.num 100⟩⟩]⟩

theorem processAllocations_flatten_witness :
    (processAllocations allocationP1).length = [stocksUS].length * 1 :=
  (processAllocations_flatten allocationP1 ⟨"Alloc p1", some [stocksUS]⟩ [stocksUS] 1 rfl rfl
    (fun ac hac => by
      have hacs : ac = stocksUS := by simpa using hac
      subst hacs
      exact ⟨[⟨"US", some ⟨"US123", JsVal.num 100⟩⟩], rfl, rfl, by decide⟩)).2.1

theorem filterMap_congr_mem {α β : Type} (l : List α) (f g : α → Option β)
    (h : ∀ a ∈ l, f a = g a) : l.filterMap f = l.filterMap g := by
  induction l with
  | nil => simp
  | cons x xs ih =>
    rw [List.filterMap_cons, List.filterMap_cons, h x (by simp),
        ih (fun a ha => h a (by simp [ha]))]

theorem foldl_mapSet_insert_get (allocations : List DataXAllocationResponse) :
    ∀ (m0 : List (String × DataXAllocationResponse)) (k : String),
      (∀ a ∈ allocations, mapHasKey m0 a.id = false) →
      (allocations.map (fun a => a.id)).Nodup →
      mapGet? (allocations.foldl (fun m allocation => mapSet m allocation.id allocation) m0) k
        = (match allocations.find? (fun a => a.id == k) with
           | some a => some a
           | none => mapGet? m0 k) := by
  induction allocations with
  | nil => intro m0 k hdis hnd; simp
  | cons a rest ih =>
    intro m0 k hdis hnd
    rw [List.foldl_cons]
    rw [List.map_cons, List.nodup_cons] at hnd
    have hnotin : a.id ∉ rest.map (fun x => x.id) := hnd.1
    have hdis2 : ∀ x ∈ rest, mapHasKey (mapSet m0 a.id a) x.id = false := by
      intro x hx
      rw [mapHasKey_mapSet]
      have hne : x.id ≠ a.id := by
        intro he
        exact hnotin (he ▸ List.mem_map_of_mem (fun y => y.id) hx)
      simp [hne, hdis x (by simp [hx])]
    rw [ih (mapSet m0 a.id a) k hdis2 hnd.2]
    by_cases hk : a.id = k
    · subst hk
      have hfind : rest.find? (fun x => x.id == a.id) = none := by
        rw [List.find?_eq_none]
        intro x hx
        simp only [beq_iff_eq]
        intro he
        exact hnotin (he ▸ List.mem_map_of_mem (fun y => y.id) hx)
      have hcons : (a :: rest).find? (fun x => x.id == a.id) = some a := by
        rw [List.find?_cons]
        simp
      rw [hfind, hcons]
      rw [mapGet?_mapSet]
      simp
    · have hb : (a.id == k) = false := by simp [hk]
      have hcons : (a :: rest).find? (fun x => x.id == k)
          = rest.find? (fun x => x.id == k) := by
        rw [List.find?_cons]
        simp [hb]
      rw [hcons]
      cases hf : rest.find? (fun x => x.id == k) with
      | some x => simp
      | none =>
        rw [mapGet?_mapSet]
        simp [Ne.symm hk]

theorem allocationMap_get (allocations : List DataXAllocationResponse) (k : String)
    (h : (allocations.map (fun a => a.id)).Nodup) :
    mapGet? (allocations.foldl (fun m allocation => mapSet m allocation.id allocation) []) k
      = allocations.find? (fun a => a.id == k) := by
  rw [foldl_mapSet_insert_get allocations [] k (fun a ha => rfl) h]
  cases hf : allocations.find? (fun a => a.id == k) <;> simp [mapGet?]

/-- Claim C1: with distinct ids, mergeProductAndAllocations returns exactly
one entity per input summary whose matched tree exists and validates, whose
summary validates and whose flattening is non-empty, none for any other
summary, in input summary order (the refinement target reconcileSpec states
this shape); and every returned entity carries a non-empty allocation
list. -/
theorem mergeProductAndAllocations_spec (products : List DataXProductResponse)
    (allocations : List DataXAllocationResponse)
    (h : (allocations.map (fun a => a.id)).Nodup) :
    mergeProductAndAllocations products allocations = reconcileSpec products allocations
    ∧ ∀ entity ∈ mergeProductAndAllocations products allocations, entity.allocations ≠ [] := by
  have hmain : mergeProductAndAllocations products allocations
      = reconcileSpec products allocations := by
    simp only [mergeProductAndAllocations, reconcileSpec]
    apply filterMap_congr_mem
    intro p hp
    have hS : (products.map (fun x => x.id)).contains p.id = true := by
      simp only [List.elem_iff, List.mem_map]
      exact ⟨p, hp, rfl⟩
    by_cases hT : (allocations.map (fun a => a.id)).contains p.id = true
    · have hverdict : mapGet? (validateDataPairing products allocations) p.id
          = some ⟨true, []⟩ := by
        rw [validateDataPairing_get, hS, hT]
        simp
      rw [hverdict, allocationMap_get allocations p.id h]
      cases hf : allocations.find? (fun a => a.id == p.id) with
      | none => simp
      | some tree =>
        cases hvp : (validateProduct p).isValid <;>
          cases hva : (validateAllocation tree).isValid <;>
            cases hpe : (processAllocations tree).isEmpty <;>
              simp [hvp, hva, hpe]
    · have hT2 : (allocations.map (fun a => a.id)).contains p.id = false := by
        simpa using hT
      have hverdict : mapGet? (validateDataPairing products allocations) p.id
          = some ⟨false, [orphanProductMsg p.id]⟩ := by
        rw [validateDataPairing_get, hS, hT2]
        simp
      have hnomem : p.id ∉ allocations.map (fun a => a.id) := by
        simpa using hT2
      have hfind : allocations.find? (fun a => a.id == p.id) = none := by
        rw [List.find?_eq_none]
        intro x hx
        simp only [beq_iff_eq]
        intro he
        exact hnomem (he ▸ List.mem_map_of_mem (fun a => a.id) hx)
      rw [hverdict, hfind]
      simp
  refine ⟨hmain, ?_⟩
  rw [hmain]
  intro entity hent
  simp only [reconcileSpec] at hent
  rw [List.mem_filterMap] at hent
  obtain ⟨p, hp, hpe⟩ := hent
  cases hf : allocations.find? (fun a => a.id == p.id) with
  | none => rw [hf] at hpe; simp at hpe
  | some tree =>
    rw [hf] at hpe
    by_cases hcond : ((validateProduct p).isValid && (validateAllocation tree).isValid
        && !(processAllocations tree).isEmpty) = true
    · have hpe2 : (⟨p.id, p.productType, p.profit, p.currentAmount, p.investedAmount,
          processAllocations tree⟩ : ProcessedProduct) = entity := by
        simpa [hcond] using hpe
      have hne : processAllocations tree ≠ [] := by
        rcases Bool.and_eq_true_iff.1 hcond with ⟨_, h2⟩
        simpa using h2
      rw [← hpe2]
      exact fun he => hne (by simpa using he)
    · simp [hcond] at hpe

theorem mergeProductAndAllocations_spec_witness :
    (mergeProductAndAllocations [productP1] [allocationP1]
        = reconcileSpec [productP1] [allocationP1])
    ∧ ∀ entity ∈ mergeProductAndAllocations [productP1] [allocationP1],
        entity.allocations ≠ [] :=
  mergeProductAndAllocations_spec [productP1] [allocationP1] (by decide)

theorem createAllocations_ok (fails : SaveOp → Bool) (rows : List ProcessedAllocation) :
    ∀ (tx : DBState) (res : SyncResult),
      (∀ r ∈ rows, fails (SaveOp.insertAllocation (allocRowId r)) = false) →
      createAllocations fails rows tx res = Except.ok
        (⟨tx.products, tx.allocations ++ rows.map dbAllocationOf⟩,
         ⟨res.success, res.productsProcessed, res.allocationsProcessed + rows.length,
          res.errors⟩) := by
  induction rows with
  | nil => intro tx res h; simp [createAllocations]
  | cons r rest ih =>
    intro tx res h
    have hr := h r (by simp)
    simp only [createAllocations, hr, Bool.false_eq_true, if_false]
    rw [ih _ _ (fun x hx => h x (by simp [hx]))]
    simp [List.append_assoc, Nat.add_assoc, Nat.add_comm, Nat.add_left_comm]

theorem saveLoop_ok (fails : SaveOp → Bool) (products : List ProcessedProduct) :
    ∀ (tx : DBState) (res : SyncResult),
      (∀ p ∈ products, fails (SaveOp.insertProduct p.id) = false ∧
        ∀ r ∈ p.allocations, fails (SaveOp.insertAllocation (allocRowId r)) = false) →
      saveLoop fails products tx res = Except.ok
        (⟨tx.products ++ products.map dbProductOf,
          tx.allocations ++ products.flatMap (fun p => p.allocations.map dbAllocationOf)⟩,
         ⟨res.success, res.productsProcessed + products.length,
          res.allocationsProcessed + (products.map (fun p => p.allocations.length)).sum,
          res.errors⟩) := by
  induction products with
  | nil => intro tx res h; simp [saveLoop]
  | cons p rest ih =>
    intro tx res h
    have hp := h p (by simp)
    simp only [saveLoop, hp.1, Bool.false_eq_true, if_false]
    rw [createAllocations_ok fails p.allocations _ _ hp.2]
    simp only []
    rw [ih _ _ (fun x hx => h x (by simp [hx]))]
    simp [List.append_assoc, List.flatMap_cons, Nat.add_assoc, Nat.add_comm, Nat.add_left_comm]

/-- Claim C7: when every insert succeeds, saveProductsToDatabase commits
the transaction (the store holds exactly the written rows) and returns
success with the exact entity and row counts and no errors. -/
theorem saveProductsToDatabase_success (fails : SaveOp → Bool) (db : DBState)
    (products : List ProcessedProduct)
    (h : ∀ p ∈ products, fails (SaveOp.insertProduct p.id) = false ∧
          ∀ r ∈ p.allocations, fails (SaveOp.insertAllocation (allocRowId r)) = false) :
    (saveProductsToDatabase fails db products).1
      = Except.ok ⟨true, products.length,
          (products.map (fun p => p.allocations.length)).sum, []⟩
    ∧ (saveProductsToDatabase fails db products).2
      = ⟨products.map dbProductOf,
         products.flatMap (fun p => p.allocations.map dbAllocationOf)⟩ := by
  simp only [saveProductsToDatabase]
  rw [saveLoop_ok fails products _ _ h]
  simp

/-- Fully processed entity p1 as produced by the reconciler. -/
def processedP1 : ProcessedProduct :=
  ⟨"p1", some "WEALTH", JsVal.num 1000, JsVal.num 5000, JsVal.num 4000,
   [⟨"p1", "Stocks", "US", "US123", JsVal.num 100⟩]⟩

theorem saveProductsToDatabase_success_witness :
    (saveProductsToDatabase noFail ⟨[], []⟩ [processedP1]).1
      = Except.ok ⟨true, [processedP1].length,
          ([processedP1].map (fun p => p.allocations.length)).sum, []⟩
    ∧ (saveProductsToDatabase noFail ⟨[], []⟩ [processedP1]).2
      = ⟨[processedP1].map dbProductOf,
         [processedP1].flatMap (fun p => p.allocations.map dbAllocationOf)⟩ :=
  saveProductsToDatabase_success noFail ⟨[], []⟩ [processedP1]
    (fun _ _ => ⟨rfl, fun _ _ => rfl⟩)

theorem createAllocations_err (fails : SaveOp → Bool) (rows : List ProcessedAllocation) :
    ∀ (tx : DBState) (res : SyncResult),
      (∃ r ∈ rows, fails (SaveOp.insertAllocation (allocRowId r)) = true) →
      ∃ e res2, createAllocations fails rows tx res = Except.error (e, res2) := by
  induction rows with
  | nil =>
    intro tx res h
    rcases h with ⟨r, hr, _⟩
    exact absurd hr (List.not_mem_nil r)
  | cons r rest ih =>
    intro tx res h
    by_cases hr : fails (SaveOp.insertAllocation (allocRowId r)) = true
    · simp only [createAllocations, hr, if_true]
      exact ⟨_, _, rfl⟩
    · have hr2 : fails (SaveOp.insertAllocation (allocRowId r)) = false := by simpa using hr
      simp only [createAllocations, hr2, Bool.false_eq_true, if_false]
      apply ih
      rcases h with ⟨x, hx, hfx⟩
      rcases List.mem_cons.1 hx with rfl | hx2
      · exact absurd hfx (by simp [hr2])
      · exact ⟨x, hx2, hfx⟩

theorem saveLoop_err (fails : SaveOp → Bool) (products : List ProcessedProduct) :
    ∀ (tx : DBState) (res : SyncResult),
      (∃ p ∈ products, fails (SaveOp.insertProduct p.id) = true ∨
        ∃ r ∈ p.allocations, fails (SaveOp.insertAllocation (allocRowId r)) = true) →
      ∃ e res2, saveLoop fails products tx res = Except.error (e, res2)
        ∧ res2.errors ≠ [] := by
  induction products with
  | nil =>
    intro tx res h
    rcases h with ⟨p, hp, _⟩
    exact absurd hp (List.not_mem_nil p)
  | cons p rest ih =>
    intro tx res h
    by_cases hfp : fails (SaveOp.insertProduct p.id) = true
    · simp only [saveLoop, hfp, if_true]
      exact ⟨_, _, rfl, by simp⟩
    · have hfp2 : fails (SaveOp.insertProduct p.id) = false := by simpa using hfp
      simp only [saveLoop, hfp2, Bool.false_eq_true, if_false]
      by_cases hfa : ∃ r ∈ p.allocations, fails (SaveOp.insertAllocation (allocRowId r)) = true
      · obtain ⟨e, res2, heq⟩ := createAllocations_err fails p.allocations _ _ hfa
        rw [heq]
        exact ⟨_, _, rfl, by simp⟩
      · have hok : ∀ r ∈ p.allocations, fails (SaveOp.insertAllocation (allocRowId r)) = false := by
          intro r hrr
          cases hfr : fails (SaveOp.insertAllocation (allocRowId r))
          · rfl
          · exact absurd ⟨r, hrr, hfr⟩ hfa
        rw [createAllocations_ok fails p.allocations _ _ hok]
        simp only []
        apply ih
        rcases h with ⟨x, hx, hfx⟩
        rcases List.mem_cons.1 hx with rfl | hx2
        · rcases hfx with hfx | hfx
          · exact absurd hfx (by simp [hfp2])
          · exact absurd hfx hfa
        · exact ⟨x, hx2, hfx⟩

/-- Claim C2: if the insert of any entity or of any of its allocation rows
fails, saveProductsToDatabase raises the error instead of returning the
outcome object, the failure is recorded on the outcome's error list, and
the persisted store state after the call is the pre-call state. -/
theorem saveProductsToDatabase_atomic (fails : SaveOp → Bool) (db : DBState)
    (products : List ProcessedProduct)
    (h : ∃ p ∈ products, fails (SaveOp.insertProduct p.id) = true ∨
          ∃ r ∈ p.allocations, fails (SaveOp.insertAllocation (allocRowId r)) = true) :
    ∃ e res, (saveProductsToDatabase fails db products).1 = Except.error (e, res)
      ∧ res.errors ≠ []
      ∧ (saveProductsToDatabase fails db products).2 = db := by
  obtain ⟨e, res2, heq, hne⟩ := saveLoop_err fails products ⟨[], []⟩
    ⟨false, 0, 0, []⟩ h
  simp only [saveProductsToDatabase]
  rw [heq]
  exact ⟨_, _, rfl, by simp, rfl⟩

/-- Failure oracle that rejects every insert. -/
def allFail : SaveOp → Bool := fun _ => true

theorem saveProductsToDatabase_atomic_witness :
    ∃ e res, (saveProductsToDatabase allFail ⟨[], []⟩ [processedP1]).1 = Except.error (e, res)
      ∧ res.errors ≠ []
      ∧ (saveProductsToDatabase allFail ⟨[], []⟩ [processedP1]).2 = ⟨[], []⟩ :=
  saveProductsToDatabase_atomic allFail ⟨[], []⟩ [processedP1]
    ⟨processedP1, by simp, Or.inl rfl⟩

/-- Claim C8: running the sync handler twice against the same fetched
source collections yields identical read-back output after the first and
after the second run. -/
theorem runSync_idempotent
    (fetched : Except String (List DataXAllocationResponse × List DataXProductResponse))
    (fails : SaveOp → Bool) (db : DBState) :
    getProductsWithAllocations
        ((getSyncHandler fetched fails ((getSyncHandler fetched fails db).2)).2)
      = getProductsWithAllocations ((getSyncHandler fetched fails db).2) := by
  suffices hstate : (getSyncHandler fetched fails ((getSyncHandler fetched fails db).2)).2
      = (getSyncHandler fetched fails db).2 by rw [hstate]
  cases fetched with
  | error e => simp [getSyncHandler]
  | ok pa =>
    obtain ⟨allocations, products⟩ := pa
    by_cases hempty : (mergeProductAndAllocations products allocations).isEmpty = true
    · simp [getSyncHandler, hempty]
    · have hempty2 : (mergeProductAndAllocations products allocations).isEmpty = false := by
        simpa using hempty
      cases hloop : saveLoop fails (mergeProductAndAllocations products allocations)
          ⟨[], []⟩ ⟨false, 0, 0, []⟩ with
      | ok tr =>
        obtain ⟨t, r⟩ := tr
        simp [getSyncHandler, hempty2, saveProductsToDatabase, hloop]
      | error er =>
        obtain ⟨e, r⟩ := er
        simp [getSyncHandler, hempty2, saveProductsToDatabase, hloop]

/-- Claim C9: a run with at least one surviving entity (and a store that
accepts the inserts) answers 200 with success true, however many other
summaries were skipped by validation; a run with zero survivors answers the
distinct 400 no-valid-products response; a fetch failure answers the
distinct 500 internal-failure response, as does a persistence failure. -/
theorem syncHandler_outcomes (products : List DataXProductResponse)
    (allocations : List DataXAllocationResponse) (fails : SaveOp → Bool)
    (db : DBState) (e : String) :
    ((mergeProductAndAllocations products allocations ≠ [] →
      (∀ p ∈ mergeProductAndAllocations products allocations,
          fails (SaveOp.insertProduct p.id) = false ∧
          ∀ r ∈ p.allocations, fails (SaveOp.insertAllocation (allocRowId r)) = false) →
      ((getSyncHandler (Except.ok (allocations, products)) fails db).1.status = 200
        ∧ (getSyncHandler (Except.ok (allocations, products)) fails db).1.success = true)))
    ∧ (mergeProductAndAllocations products allocations = [] →
        ((getSyncHandler (Except.ok (allocations, products)) fails db).1.status = 400
          ∧ (getSyncHandler (Except.ok (allocations, products)) fails db).1.success = false
          ∧ (getSyncHandler (Except.ok (allocations, products)) fails db).1.message
              = "No valid products found to sync"))
    ∧ ((∃ er res2, (saveProductsToDatabase fails db
            (mergeProductAndAllocations products allocations)).1
              = Except.error (er, res2)) →
        mergeProductAndAllocations products allocations ≠ [] →
        ((getSyncHandler (Except.ok (allocations, products)) fails db).1.status = 500
          ∧ (getSyncHandler (Except.ok (allocations, products)) fails db).1.message
              = "Sync process failed"))
    ∧ ((getSyncHandler (Except.error e) fails db).1.status = 500
        ∧ (getSyncHandler (Except.error e) fails db).1.message = "Sync process failed") := by
  refine ⟨?_, ?_, ?_, by simp [getSyncHandler]⟩
  · intro hne hok
    have hempty : (mergeProductAndAllocations products allocations).isEmpty = false := by
      cases hm : mergeProductAndAllocations products allocations with
      | nil => exact absurd hm hne
      | cons x xs => rfl
    have hsave := saveLoop_ok fails (mergeProductAndAllocations products allocations)
      ⟨[], []⟩ ⟨false, 0, 0, []⟩ hok
    simp [getSyncHandler, hempty, saveProductsToDatabase, hsave]
  · intro hm
    simp [getSyncHandler, hm]
  · intro hsaveerr hne
    have hempty : (mergeProductAndAllocations products allocations).isEmpty = false := by
      cases hm : mergeProductAndAllocations products allocations with
      | nil => exact absurd hm hne
      | cons x xs => rfl
    obtain ⟨er, res2, heq⟩ := hsaveerr
    cases hpair : saveProductsToDatabase fails db (mergeProductAndAllocations products allocations) with
    | mk fst snd =>
      rw [hpair] at heq
      simp only at heq
      subst heq
      simp [getSyncHandler, hempty, hpair]

theorem syncHandler_outcomes_witness :
    (getSyncHandler (Except.ok ([allocationP1], [productP1])) noFail ⟨[], []⟩).1.status = 200
    ∧ (getSyncHandler (Except.ok ([allocationP1], [productP1])) noFail ⟨[], []⟩).1.success = true :=
  (syncHandler_outcomes [productP1] [allocationP1] noFail ⟨[], []⟩ "boom").1 (by decide)
    (fun _ _ => ⟨rfl, fun _ _ => rfl⟩)
